import Mathlib

/-!
Shallow embedding of the still-image QR detection core of `script.js`
(repository `inchinet/qrscanner`).

Modelling conventions:
* an `ImageData` is a width, a height, and the sample function of its
  `Uint8ClampedArray` (flat index to sample value); per the data-model
  invariant `samples.length = width*height*4`, the array length is taken to
  be `4 * width * height` and indices beyond it are passed through unchanged;
* JavaScript floating-point arithmetic is modelled over `ℚ`; the special
  values produced by a zero denominator in histogram equalization are
  modelled exactly by `JSNum` (finite / NaN / ±Infinity) with the ECMAScript
  `ToUint8Clamp` conversion;
* the host functions `Math.exp` and `Math.sqrt` are passed as explicit
  function parameters (`mexp`, `msqrt`); the two external decode engines
  (`jsQR`, ZXing) and the canvas resampler (`drawImage`/`getImageData`) are
  oracles collected in `Host` and `SourceImage`;
* `ctx.getImageData` with a zero dimension throws `IndexSizeError`; fallible
  scan routines therefore return `Except DomError (Option String)`.
-/

namespace QRScanner

/-- An `ImageData` pixel buffer: RGBA samples at flat indices, stride 4. -/
@[ext]
structure ImageData where
  width : ℕ
  height : ℕ
  data : ℕ → ℕ

/-- Length of the sample array, `width*height*4` (data-model invariant). -/
def ImageData.len (buf : ImageData) : ℕ := 4 * (buf.width * buf.height)

/-- Red sample of the pixel at column `x`, row `y`. -/
def redAt (buf : ImageData) (x y : ℕ) : ℕ := buf.data (4 * (y * buf.width + x))

/-- Sample of channel `c` (0=R,1=G,2=B,3=A) of the pixel at `(x, y)`. -/
def samp (buf : ImageData) (x y c : ℕ) : ℕ := buf.data (4 * (y * buf.width + x) + c)

/-- Round to the nearest integer, ties to even (IEEE / `ToUint8Clamp`). -/
def roundTiesEven (q : ℚ) : ℤ :=
  let f := ⌊q⌋
  if (f : ℚ) + 1/2 < q then f + 1
  else if q < (f : ℚ) + 1/2 then f
  else if f % 2 = 0 then f else f + 1

/-- ECMAScript `ToUint8Clamp` on a finite number: storing into a
`Uint8ClampedArray` clamps to `[0, 255]` and rounds ties to even. -/
def clampU8 (q : ℚ) : ℕ :=
  if q ≤ 0 then 0 else if 255 ≤ q then 255 else (roundTiesEven q).toNat

/-- The interior-pixel condition of the convolution loops: a pixel at
`(x, y)` whose distance from every image edge is at least `r`.  The loops
`for (y = r; y < height - r; y++)` translate to `r ≤ y ∧ y < h - r` (with
truncated `ℕ` subtraction agreeing with the empty JavaScript loop when
`h ≤ r`). -/
def inInterior (w h r x y : ℕ) : Prop :=
  r ≤ x ∧ x < w - r ∧ r ≤ y ∧ y < h - r

instance (w h r x y : ℕ) : Decidable (inInterior w h r x y) := by
  unfold inInterior; infer_instance

/-- Luma of pixel `p`: `0.299*R + 0.587*G + 0.114*B` (`convertToGrayscale`,
line 324, and the fixed-threshold loop, line 851). -/
def grayOf (buf : ImageData) (p : ℕ) : ℚ :=
  (299/1000) * (buf.data (4*p) : ℚ) + (587/1000) * (buf.data (4*p+1) : ℚ)
    + (114/1000) * (buf.data (4*p+2) : ℚ)

/-- `convertToGrayscale` (lines 321–330): writes the luma into R, G and B of
every pixel; the alpha sample (index `i` with `i % 4 = 3`) is not written. -/
def convertToGrayscale (buf : ImageData) : ImageData :=
  { buf with data := fun i =>
      if i < buf.len ∧ i % 4 ≠ 3 then clampU8 (grayOf buf (i / 4)) else buf.data i }

/-- The per-channel contrast map of `enhanceImageContrast` (line 342):
`Math.min(255, Math.max(0, 1.5 * (v - 128) + 128))`. -/
def contrastValue (v : ℕ) : ℚ := min 255 (max 0 ((3/2) * ((v : ℚ) - 128) + 128))

/-- `enhanceImageContrast` (lines 337–347): contrast stretch with factor 1.5
on each color channel; alpha not written. -/
def enhanceImageContrast (buf : ImageData) : ImageData :=
  { buf with data := fun i =>
      if i < buf.len ∧ i % 4 ≠ 3 then clampU8 (contrastValue (buf.data i)) else buf.data i }

/-- The 3×3 sharpening kernel of `sharpenImage` (lines 361–365), row-major. -/
def sharpenKernel : List ℤ := [0, -1, 0, -1, 5, -1, 0, -1, 0]

/-- The 3×3 convolution sum of `sharpenImage` at `(x, y)`, channel `c`
(only evaluated with `1 ≤ x` and `1 ≤ y`). -/
def convolve3x3 (buf : ImageData) (ker : List ℤ) (x y c : ℕ) : ℤ :=
  ∑ k ∈ Finset.range 9, ker.getD k 0 * (samp buf (x + k % 3 - 1) (y + k / 3 - 1) c : ℤ)

/-- `sharpenImage` (lines 354–388): convolution on the three color channels
of interior pixels, result clamped by `Math.min(255, Math.max(0, sum))`;
the output array starts as a copy of the input, so border pixels and all
alpha samples are unchanged. -/
def sharpenImage (buf : ImageData) : ImageData :=
  { buf with data := fun i =>
      let x := i / 4 % buf.width
      let y := i / 4 / buf.width
      if i < buf.len ∧ i % 4 ≠ 3 ∧ inInterior buf.width buf.height 1 x y then
        (min 255 (max 0 (convolve3x3 buf sharpenKernel x y (i % 4)))).toNat
      else buf.data i }

/-- `applyAdaptiveThreshold` (lines 395–441): for every pixel, the mean of
the red samples over the window `[x-11, x+11] × [y-11, y+11]` clipped to the
image; the pixel becomes 255 iff its red sample strictly exceeds
`mean - 8`; alpha is copied through. -/
def applyAdaptiveThreshold (buf : ImageData) : ImageData :=
  { buf with data := fun i =>
      let p := i / 4
      let x := p % buf.width
      let y := p / buf.width
      if i < buf.len ∧ i % 4 ≠ 3 then
        let rows := Finset.Icc (y - 11) (min (buf.height - 1) (y + 11))
        let cols := Finset.Icc (x - 11) (min (buf.width - 1) (x + 11))
        let s : ℕ := ∑ dy ∈ rows, ∑ dx ∈ cols, redAt buf dx dy
        let mean : ℚ := (s : ℚ) / ((rows.card * cols.card : ℕ) : ℚ)
        if mean - 8 < (redAt buf x y : ℚ) then 255 else 0
      else buf.data i }

/-- The 256-bin histogram of the red samples, as in the loops of
`applyOtsuThreshold` (line 511) and `applyHistogramEqualization` (line 574):
one entry per pixel, keyed by `data[4*p]`. -/
def histogram (buf : ImageData) (v : ℕ) : ℕ :=
  ((Finset.range (buf.width * buf.height)).filter (fun p => buf.data (4*p) = v)).card

/-- The weighted sum `Σ i * histogram[i]` of `applyOtsuThreshold`
(lines 519–522). -/
def intensitySum (buf : ImageData) : ℕ :=
  ∑ t ∈ Finset.range 256, t * histogram buf t

/-- Loop state of the Otsu threshold search (lines 524–548); `done` models
the `break` on `wF === 0`. -/
structure OtsuState where
  wB : ℕ
  sumB : ℕ
  maxVariance : ℚ
  threshold : ℕ
  done : Bool

/-- The between-class variance `wB * wF * (mB - mF)²` computed by the loop
body (lines 539–542), with `wF = total - wB`, `mB = sumB / wB` and
`mF = (sum - sumB) / wF`. -/
def otsuVariance (total sum wB sumB : ℕ) : ℚ :=
  let wF : ℤ := (total : ℤ) - (wB : ℤ)
  let mB : ℚ := (sumB : ℚ) / (wB : ℚ)
  let mF : ℚ := ((sum : ℚ) - (sumB : ℚ)) / (wF : ℚ)
  (wB : ℚ) * (wF : ℚ) * ((mB - mF) * (mB - mF))

/-- One iteration of the Otsu threshold search loop (lines 530–548). -/
def otsuStep (total : ℕ) (sum : ℕ) (hist : ℕ → ℕ) (s : OtsuState) (t : ℕ) : OtsuState :=
  if s.done then s
  else
    let wB := s.wB + hist t
    if wB = 0 then { s with wB := wB }
    else if (total : ℤ) - (wB : ℤ) = 0 then { s with wB := wB, done := true }
    else
      let sumB := s.sumB + t * hist t
      let variance : ℚ := otsuVariance total sum wB sumB
      if s.maxVariance < variance then
        { wB := wB, sumB := sumB, maxVariance := variance, threshold := t, done := false }
      else
        { s with wB := wB, sumB := sumB }

/-- The threshold selected by `applyOtsuThreshold` (lines 509–548). -/
def otsuThresholdOf (buf : ImageData) : ℕ :=
  ((List.range 256).foldl
    (otsuStep (buf.width * buf.height) (intensitySum buf) (histogram buf))
    ⟨0, 0, 0, 0, false⟩).threshold

/-- `applyOtsuThreshold` (lines 504–559): binarize every pixel at the
selected threshold (`data[i] > threshold ? 255 : 0`, strict), writing R, G
and B; alpha not written. -/
def applyOtsuThreshold (buf : ImageData) : ImageData :=
  let t := otsuThresholdOf buf
  { buf with data := fun i =>
      if i < buf.len ∧ i % 4 ≠ 3 then
        (if t < buf.data (4 * (i / 4)) then 255 else 0)
      else buf.data i }

/-- Cumulative distribution `cdf[i] = Σ_{j ≤ i} histogram[j]`
(`applyHistogramEqualization`, lines 579–583). -/
def cdf (buf : ImageData) (i : ℕ) : ℕ :=
  ∑ j ∈ Finset.range (i + 1), histogram buf j

/-- The `cdfMin` search of `applyHistogramEqualization` (lines 586–592):
the first `cdf[i] > 0` for `i = 0..255`, defaulting to `cdf[0]`. -/
def cdfMin (buf : ImageData) : ℕ :=
  match (List.range 256).find? (fun i => decide (0 < cdf buf i)) with
  | some i => cdf buf i
  | none => cdf buf 0

/-- A JavaScript number as it arises in the equalization lookup table:
finite, NaN, or a signed infinity. -/
inductive JSNum where
  | num : ℚ → JSNum
  | nan : JSNum
  | posInf : JSNum
  | negInf : JSNum
deriving DecidableEq

/-- JavaScript division of two finite numbers: a zero denominator yields
NaN (for `0/0`) or a signed infinity, never an error. -/
def jsDivNum (a b : ℚ) : JSNum :=
  if b = 0 then
    (if a = 0 then .nan else if 0 < a then .posInf else .negInf)
  else .num (a / b)

/-- JavaScript multiplication by the positive constant 255. -/
def jsMul255 : JSNum → JSNum
  | .num q => .num (q * 255)
  | .nan => .nan
  | .posInf => .posInf
  | .negInf => .negInf

/-- `Math.round`: `⌊x + 1/2⌋` on finite numbers, NaN and infinities fixed. -/
def jsRound : JSNum → JSNum
  | .num q => .num ((⌊q + 1/2⌋ : ℤ) : ℚ)
  | .nan => .nan
  | .posInf => .posInf
  | .negInf => .negInf

/-- ECMAScript `ToUint8Clamp` on a general number: NaN and `-Infinity`
store 0, `+Infinity` stores 255, finite values are clamped and rounded. -/
def toUint8Clamp : JSNum → ℕ
  | .num q => clampU8 q
  | .nan => 0
  | .posInf => 255
  | .negInf => 0

/-- The equalization lookup table (lines 595–598):
`Math.round(((cdf[v] - cdfMin) / (total - cdfMin)) * 255)` for `v ≤ 255`;
an out-of-range read of the table gives `undefined`, i.e. NaN on use. -/
def histEqLookup (buf : ImageData) (v : ℕ) : JSNum :=
  if v ≤ 255 then
    jsRound (jsMul255 (jsDivNum
      ((cdf buf v : ℚ) - (cdfMin buf : ℚ))
      ((buf.width * buf.height : ℕ) - (cdfMin buf : ℚ))))
  else .nan

/-- `applyHistogramEqualization` (lines 566–609): each pixel's R, G and B
become the table entry at the pixel's red sample; alpha not written. -/
def applyHistogramEqualization (buf : ImageData) : ImageData :=
  { buf with data := fun i =>
      if i < buf.len ∧ i % 4 ≠ 3 then
        toUint8Clamp (histEqLookup buf (buf.data (4 * (i / 4))))
      else buf.data i }

/-- The combined bilateral weight of neighbour `k` (row-major over the 5×5
window, `k = (dy+2)*5 + (dx+2)`) at centre `(x, y)` (lines 628–652):
`exp(-(dx²+dy²)/(2·50²)) · exp(-colorDiff²/(2·50²))`, with `colorDiff`
taken between red samples.  `mexp` is the host's `Math.exp`. -/
def bilateralWeight (mexp : ℚ → ℚ) (buf : ImageData) (x y k : ℕ) : ℚ :=
  let dx : ℤ := (k % 5 : ℤ) - 2
  let dy : ℤ := (k / 5 : ℤ) - 2
  let colorDiff : ℚ := (redAt buf (x + k % 5 - 2) (y + k / 5 - 2) : ℚ) - (redAt buf x y : ℚ)
  mexp (-(((dx * dx + dy * dy : ℤ) : ℚ)) / (2 * 50 * 50)) *
    mexp (-(colorDiff * colorDiff) / (2 * 50 * 50))

/-- Weighted channel sum of the bilateral filter at `(x, y)` (lines 654–656). -/
def bilateralSumC (mexp : ℚ → ℚ) (buf : ImageData) (x y c : ℕ) : ℚ :=
  ∑ k ∈ Finset.range 25,
    (samp buf (x + k % 5 - 2) (y + k / 5 - 2) c : ℚ) * bilateralWeight mexp buf x y k

/-- Total bilateral weight at `(x, y)` (line 657). -/
def bilateralSumW (mexp : ℚ → ℚ) (buf : ImageData) (x y : ℕ) : ℚ :=
  ∑ k ∈ Finset.range 25, bilateralWeight mexp buf x y k

/-- `applyBilateralFilter` (lines 616–674): 5×5 window, radius 2; interior
pixels with positive total weight get each color channel replaced by the
normalized weighted sum; the output starts as a copy, so the border ring of
width 2 and all alpha samples are unchanged. -/
def applyBilateralFilter (mexp : ℚ → ℚ) (buf : ImageData) : ImageData :=
  { buf with data := fun i =>
      let x := i / 4 % buf.width
      let y := i / 4 / buf.width
      if i < buf.len ∧ i % 4 ≠ 3 ∧ inInterior buf.width buf.height 2 x y ∧
          0 < bilateralSumW mexp buf x y then
        clampU8 (bilateralSumC mexp buf x y (i % 4) / bilateralSumW mexp buf x y)
      else buf.data i }

/-- The Sobel `Gx` kernel (line 688), row-major. -/
def sobelX : List ℤ := [-1, 0, 1, -2, 0, 2, -1, 0, 1]

/-- The Sobel `Gy` kernel (line 689), row-major. -/
def sobelY : List ℤ := [-1, -2, -1, 0, 0, 0, 1, 2, 1]

/-- A Sobel gradient component at `(x, y)`: a 3×3 convolution of the red
samples (the code reads `data[idx]` only). -/
def sobelG (buf : ImageData) (ker : List ℤ) (x y : ℕ) : ℤ :=
  ∑ k ∈ Finset.range 9, ker.getD k 0 * (redAt buf (x + k % 3 - 1) (y + k / 3 - 1) : ℤ)

/-- `applySobelEdgeDetection` (lines 681–720): the output array is freshly
zero-initialized (`new Uint8ClampedArray(data.length)`, line 685); interior
pixels get `sqrt(gx²+gy²)` in R, G, B and alpha 255; every border-ring
sample is left at 0 and then copied back over the input.  `msqrt` is the
host's `Math.sqrt`. -/
def applySobelEdgeDetection (msqrt : ℚ → ℚ) (buf : ImageData) : ImageData :=
  { buf with data := fun i =>
      let x := i / 4 % buf.width
      let y := i / 4 / buf.width
      if i < buf.len then
        if inInterior buf.width buf.height 1 x y then
          if i % 4 = 3 then 255
          else
            let gx := sobelG buf sobelX x y
            let gy := sobelG buf sobelY x y
            clampU8 (msqrt (((gx * gx + gy * gy : ℤ) : ℚ)))
        else 0
      else buf.data i }

/-- The 3×3 Gaussian kernel of `applyGaussianBlur` (lines 780–784). -/
def gaussianKernel : List ℕ := [1, 2, 1, 2, 4, 2, 1, 2, 1]

/-- The Gaussian-weighted sum of the red samples around `(x, y)`
(lines 789–796; the code reads `data[idx]`, the red channel, only). -/
def gaussianSum (buf : ImageData) (x y : ℕ) : ℕ :=
  ∑ k ∈ Finset.range 9, gaussianKernel.getD k 0 * redAt buf (x + k % 3 - 1) (y + k / 3 - 1)

/-- `applyGaussianBlur` (lines 775–805): interior pixels get `r/16` written
to R, G and B and alpha forced to 255; the output starts as a copy, so the
border ring is unchanged. -/
def applyGaussianBlur (buf : ImageData) : ImageData :=
  { buf with data := fun i =>
      let x := i / 4 % buf.width
      let y := i / 4 / buf.width
      if i < buf.len ∧ inInterior buf.width buf.height 1 x y then
        if i % 4 = 3 then 255 else clampU8 ((gaussianSum buf x y : ℚ) / 16)
      else buf.data i }

/-- The 3×3 neighbourhood red samples collected by `applyMedianFilter`
(lines 818–823), in the loop's row-major order. -/
def neighborhood3x3 (buf : ImageData) (x y : ℕ) : List ℕ :=
  [redAt buf (x-1) (y-1), redAt buf x (y-1), redAt buf (x+1) (y-1),
   redAt buf (x-1) y,     redAt buf x y,     redAt buf (x+1) y,
   redAt buf (x-1) (y+1), redAt buf x (y+1), redAt buf (x+1) (y+1)]

/-- The value `values.sort((a,b) => a-b)[4]` of `applyMedianFilter`
(lines 824–825): index 4 of the ascending sort of the nine red samples. -/
def median9 (buf : ImageData) (x y : ℕ) : ℕ :=
  ((neighborhood3x3 buf x y).insertionSort (· ≤ ·)).getD 4 0

/-- `applyMedianFilter` (lines 810–833): interior pixels get the median of
the nine neighbourhood red samples written to R, G and B and alpha forced
to 255; the output starts as a copy, so the border ring is unchanged. -/
def applyMedianFilter (buf : ImageData) : ImageData :=
  { buf with data := fun i =>
      let x := i / 4 % buf.width
      let y := i / 4 / buf.width
      if i < buf.len ∧ inInterior buf.width buf.height 1 x y then
        if i % 4 = 3 then 255 else median9 buf x y
      else buf.data i }

/-- The inline binarization loop of `scanWithFixedThreshold` (lines 850–855):
luma recomputed from R, G, B; strictly above the threshold gives 255, else
0; alpha forced to 255. -/
def fixedThresholdFilter (threshold : ℕ) (buf : ImageData) : ImageData :=
  { buf with data := fun i =>
      if i < buf.len then
        if i % 4 = 3 then 255
        else if (threshold : ℚ) < grayOf buf (i / 4) then 255 else 0
      else buf.data i }

/-- The DOM exception thrown by `ctx.getImageData` when either requested
dimension is zero. -/
inductive DomError where
  | indexSize : DomError
deriving DecidableEq

/-- The external collaborators of the still-image pipeline: the fast engine
`jsQR(data, w, h, {inversionAttempts})` (the `Bool` is `attemptBoth`), the
robust ZXing try-harder engine, and the host math functions. -/
structure Host where
  jsQR : ImageData → Bool → Option String
  zxingDecode : ImageData → Option String
  mexp : ℚ → ℚ
  msqrt : ℚ → ℚ

/-- A decoded source image together with the host canvas resampler:
`resample w h` is the buffer produced by `drawImage(img, 0, 0, w, h)`
followed by `getImageData(0, 0, w, h)`. -/
structure SourceImage where
  width : ℕ
  height : ℕ
  resample : ℕ → ℕ → ImageData

/-- `Math.floor` of a nonnegative number as a natural. -/
def natFloor (q : ℚ) : ℕ := (⌊q⌋).toNat

/-- The canvas prologue shared by every scan routine (e.g. lines 250–257):
scale both dimensions by `Math.floor`, draw, and read the pixels back;
`getImageData` throws `IndexSizeError` on a zero dimension. -/
def getScaledImageData (img : SourceImage) (scale : ℚ) : Except DomError ImageData :=
  let w := natFloor ((img.width : ℚ) * scale)
  let h := natFloor ((img.height : ℚ) * scale)
  if w = 0 ∨ h = 0 then .error .indexSize else .ok (img.resample w h)

/-- `scanWithPreprocessing` (lines 249–287): resample, then apply the
selected filters in the source's order (grayscale, bilateral, contrast,
sharpen, edges), then decode with `jsQR` using `attemptBoth`. -/
def scanWithPreprocessing (host : Host) (img : SourceImage)
    (grayscale enhanceContrast sharpen bilateral detectEdges : Bool)
    (scale : ℚ) : Except DomError (Option String) := do
  let d0 ← getScaledImageData img scale
  let d1 := if grayscale then convertToGrayscale d0 else d0
  let d2 := if bilateral then applyBilateralFilter host.mexp d1 else d1
  let d3 := if enhanceContrast then enhanceImageContrast d2 else d2
  let d4 := if sharpen then sharpenImage d3 else d3
  let d5 := if detectEdges then applySobelEdgeDetection host.msqrt d4 else d4
  return host.jsQR d5 true

/-- `scanWithAdaptiveThreshold` (lines 295–314): grayscale, adaptive
threshold, decode. -/
def scanWithAdaptiveThreshold (host : Host) (img : SourceImage)
    (scale : ℚ) : Except DomError (Option String) := do
  let d0 ← getScaledImageData img scale
  return host.jsQR (applyAdaptiveThreshold (convertToGrayscale d0)) true

/-- `scanWithOtsuThreshold` (lines 450–469): grayscale, Otsu, decode. -/
def scanWithOtsuThreshold (host : Host) (img : SourceImage)
    (scale : ℚ) : Except DomError (Option String) := do
  let d0 ← getScaledImageData img scale
  return host.jsQR (applyOtsuThreshold (convertToGrayscale d0)) true

/-- `scanWithHistogramEqualization` (lines 477–496): grayscale,
equalization, decode. -/
def scanWithHistogramEqualization (host : Host) (img : SourceImage)
    (scale : ℚ) : Except DomError (Option String) := do
  let d0 ← getScaledImageData img scale
  return host.jsQR (applyHistogramEqualization (convertToGrayscale d0)) true

/-- `scanWithDenoise` (lines 726–746): grayscale, Gaussian blur, Otsu,
decode. -/
def scanWithDenoise (host : Host) (img : SourceImage)
    (scale : ℚ) : Except DomError (Option String) := do
  let d0 ← getScaledImageData img scale
  return host.jsQR (applyOtsuThreshold (applyGaussianBlur (convertToGrayscale d0))) true

/-- `scanWithMedian` (lines 751–770): grayscale, median filter, decode. -/
def scanWithMedian (host : Host) (img : SourceImage)
    (scale : ℚ) : Except DomError (Option String) := do
  let d0 ← getScaledImageData img scale
  return host.jsQR (applyMedianFilter (convertToGrayscale d0)) true

/-- `scanWithFixedThreshold` (lines 839–864): resample, binarize at the
fixed threshold, decode. -/
def scanWithFixedThreshold (host : Host) (img : SourceImage)
    (threshold : ℕ) (scale : ℚ) : Except DomError (Option String) := do
  let d0 ← getScaledImageData img scale
  return host.jsQR (fixedThresholdFilter threshold d0) true

/-- A tag for each scan routine the orchestrator can invoke, with its
parameters; one constructor per `scanWith*` function of the source. -/
inductive StratKind where
  | preprocessing (grayscale enhanceContrast sharpen bilateral detectEdges : Bool) (scale : ℚ)
  | fixedThreshold (threshold : ℕ) (scale : ℚ)
  | denoise (scale : ℚ)
  | medianScan (scale : ℚ)
  | otsuScan (scale : ℚ)
  | histEqScan (scale : ℚ)
  | adaptiveScan (scale : ℚ)
deriving DecidableEq

/-- The `methods` array of `tryMultipleDetectionMethods` (lines 191–218):
thirteen named strategies in source order. -/
def methods : List (String × StratKind) :=
  [("Original", .preprocessing false false false false false 1),
   ("Shadow Crusher (Bright - 180)", .fixedThreshold 180 1),
   ("Shadow Crusher (Super Bright - 210)", .fixedThreshold 210 1),
   ("Shadow Crusher (Dark - 140)", .fixedThreshold 140 1),
   ("Crush Texture (Scale 50%)", .preprocessing true true false false false (1/2)),
   ("Crush Texture (Scale 25%)", .preprocessing true true false false false (1/4)),
   ("Crush Texture (Scale 75%)", .preprocessing true true false false false (3/4)),
   ("Denoise (Blur) + Otsu", .denoise 1),
   ("Median Filter (Grain Removal)", .medianScan 1),
   ("Otsu Threshold", .otsuScan 1),
   ("Histogram Equalization", .histEqScan 1),
   ("Upscale 150%", .preprocessing true true false false false (3/2)),
   ("Upscale 200%", .preprocessing true true false false false 2)]

/-- Dispatch of a strategy tag to its scan routine (the closures stored in
the `methods` array, lines 193–217). -/
def interp (host : Host) (img : SourceImage) : StratKind → Except DomError (Option String)
  | .preprocessing g c s b e sc => scanWithPreprocessing host img g c s b e sc
  | .fixedThreshold t sc => scanWithFixedThreshold host img t sc
  | .denoise sc => scanWithDenoise host img sc
  | .medianScan sc => scanWithMedian host img sc
  | .otsuScan sc => scanWithOtsuThreshold host img sc
  | .histEqScan sc => scanWithHistogramEqualization host img sc
  | .adaptiveScan sc => scanWithAdaptiveThreshold host img sc

/-- Dispatch with the adaptive-threshold routine replaced by an arbitrary
function, used to state that no listed strategy ever reaches it. -/
def interpGen (host : Host) (img : SourceImage)
    (adaptive : ℚ → Except DomError (Option String)) :
    StratKind → Except DomError (Option String)
  | .preprocessing g c s b e sc => scanWithPreprocessing host img g c s b e sc
  | .fixedThreshold t sc => scanWithFixedThreshold host img t sc
  | .denoise sc => scanWithDenoise host img sc
  | .medianScan sc => scanWithMedian host img sc
  | .otsuScan sc => scanWithOtsuThreshold host img sc
  | .histEqScan sc => scanWithHistogramEqualization host img sc
  | .adaptiveScan sc => adaptive sc

/-- JavaScript truthiness of one strategy attempt as seen by the
orchestrator loop (lines 224–232): a thrown exception is caught and, like
`null` and the empty string, counts as a miss. -/
def jsTruthyResult : Except DomError (Option String) → Option String
  | .ok (some s) => if s = "" then none else some s
  | .ok none => none
  | .error _ => none

/-- The orchestrator loop of `tryMultipleDetectionMethods` (lines 220–235):
return the first truthy strategy result, `null` when the list is spent. -/
def runMethods : List (Except DomError (Option String)) → Option String
  | [] => none
  | r :: rest =>
    match jsTruthyResult r with
    | some s => some s
    | none => runMethods rest

/-- `tryMultipleDetectionMethods` (lines 188–236): each strategy is
evaluated against the original source image. -/
def tryMultipleDetectionMethods (host : Host) (img : SourceImage) : Option String :=
  runMethods (methods.map (fun m => interp host img m.2))

/-- `tryMultipleDetectionMethods` with the adaptive-threshold routine
swapped for an arbitrary one. -/
def tryMultipleGen (host : Host) (img : SourceImage)
    (adaptive : ℚ → Except DomError (Option String)) : Option String :=
  runMethods (methods.map (fun m => interpGen host img adaptive m.2))

/-- The scale factors of the ZXing robust pre-pass (line 146). -/
def zxingScales : List ℚ := [1, 3/4, 1/2, 3/2, 2]

/-- One scale attempt of the ZXing pre-pass (lines 148–160): resample (no
pixel filtering), decode; a throw (including the zero-dimension case) is
caught and the empty string fails the `result && result.text` test. -/
def zxingAttempt (host : Host) (img : SourceImage) (scale : ℚ) : Option String :=
  let w := natFloor ((img.width : ℚ) * scale)
  let h := natFloor ((img.height : ℚ) * scale)
  if w = 0 ∨ h = 0 then none
  else
    match host.zxingDecode (img.resample w h) with
    | some t => if t = "" then none else some t
    | none => none

/-- The body of the ZXing pre-pass loop: first successful scale wins. -/
def zxingLoop (host : Host) (img : SourceImage) : List ℚ → Option String
  | [] => none
  | s :: rest =>
    match zxingAttempt host img s with
    | some t => some t
    | none => zxingLoop host img rest

/-- The ZXing pre-pass loop (lines 146–161) over the five scale factors. -/
def zxingPrePass (host : Host) (img : SourceImage) : Option String :=
  zxingLoop host img zxingScales

/-- The detection outcome reported to the UI by `scanImageFile`. -/
inductive Outcome where
  | found (text : String)
  | notFound
deriving DecidableEq

/-- The still-image orchestration of `scanImageFile` (lines 139–177):
ZXing pre-pass first, then the thirteen-strategy fallback, then "not
found". -/
def scanImageFile (host : Host) (img : SourceImage) : Outcome :=
  match zxingPrePass host img with
  | some t => .found t
  | none =>
    match tryMultipleDetectionMethods host img with
    | some t => .found t
    | none => .notFound

/-- `scanImageFile` with the adaptive-threshold routine swapped for an
arbitrary one. -/
def scanImageFileGen (host : Host) (img : SourceImage)
    (adaptive : ℚ → Except DomError (Option String)) : Outcome :=
  match zxingPrePass host img with
  | some t => .found t
  | none =>
    match tryMultipleGen host img adaptive with
    | some t => .found t
    | none => .notFound

/-- A filter-chain step as the spec's §4.1 names them. -/
inductive FilterStep where
  | grayscale
  | contrastStretch
  | sharpenStep
  | bilateralStep
  | sobelStep
  | gaussianBlur
  | otsu
  | medianStep
  | histogramEqualization
  | adaptive
  | fixedThreshold (t : ℕ)
deriving DecidableEq

/-- A spec §3 Strategy Descriptor: a scale factor and a filter chain. -/
structure SpecStrategy where
  scale : ℚ
  chain : List FilterStep
deriving DecidableEq

/-- Modelled from the spec: the fixed ordered strategy list of §4.4
(items 1–13), written out exactly as the spec words them. -/
def specStrategyList : List SpecStrategy :=
  [⟨1, []⟩,
   ⟨1, [.fixedThreshold 180]⟩,
   ⟨1, [.fixedThreshold 210]⟩,
   ⟨1, [.fixedThreshold 140]⟩,
   ⟨1/2, [.grayscale, .contrastStretch]⟩,
   ⟨1/4, [.grayscale, .contrastStretch]⟩,
   ⟨3/4, [.grayscale, .contrastStretch]⟩,
   ⟨1, [.grayscale, .gaussianBlur, .otsu]⟩,
   ⟨1, [.grayscale, .medianStep]⟩,
   ⟨1, [.grayscale, .otsu]⟩,
   ⟨1, [.grayscale, .histogramEqualization]⟩,
   ⟨3/2, [.grayscale, .contrastStretch]⟩,
   ⟨2, [.grayscale, .contrastStretch]⟩]

/-- The Strategy Descriptor realized by each scan routine: its scale and
the filter chain it applies, in the order the routine applies them. -/
def stratDescriptor : StratKind → SpecStrategy
  | .preprocessing g c s b e sc =>
      ⟨sc, (if g then [FilterStep.grayscale] else []) ++
           (if b then [FilterStep.bilateralStep] else []) ++
           (if c then [FilterStep.contrastStretch] else []) ++
           (if s then [FilterStep.sharpenStep] else []) ++
           (if e then [FilterStep.sobelStep] else [])⟩
  | .fixedThreshold t sc => ⟨sc, [.fixedThreshold t]⟩
  | .denoise sc => ⟨sc, [.grayscale, .gaussianBlur, .otsu]⟩
  | .medianScan sc => ⟨sc, [.grayscale, .medianStep]⟩
  | .otsuScan sc => ⟨sc, [.grayscale, .otsu]⟩
  | .histEqScan sc => ⟨sc, [.grayscale, .histogramEqualization]⟩
  | .adaptiveScan sc => ⟨sc, [.grayscale, .adaptive]⟩

/-! ### Theorems -/

/-- A 1×1 buffer with every sample 7; its single pixel lies in the border
ring of every 3×3 or 5×5 kernel. -/
def cexSobelBuf : ImageData := ⟨1, 1, fun _ => 7⟩

/-- C3 counterexample: the claim says every convolution filter leaves every
sample of a border pixel unchanged, but `applySobelEdgeDetection` writes
its zero-initialized scratch array back over the whole buffer: on a 1×1
image the (border) pixel's red sample becomes 0, not its input value 7. -/
theorem qrscanner_c3_counterexample :
    (applySobelEdgeDetection (fun q => q) cexSobelBuf).data 0 = 0 ∧
      cexSobelBuf.data 0 = 7 := by
  decide

/-- C3 (amended): sharpen, Gaussian blur and median leave every sample
outside the radius-1 interior unchanged, and the bilateral filter every
sample outside the radius-2 interior; Sobel instead zeroes every in-range
sample of the border ring. -/
theorem qrscanner_c3_amended :
    (∀ buf i, ¬ inInterior buf.width buf.height 1 (i / 4 % buf.width) (i / 4 / buf.width) →
      (sharpenImage buf).data i = buf.data i ∧
      (applyGaussianBlur buf).data i = buf.data i ∧
      (applyMedianFilter buf).data i = buf.data i) ∧
    (∀ mexp buf i, ¬ inInterior buf.width buf.height 2 (i / 4 % buf.width) (i / 4 / buf.width) →
      (applyBilateralFilter mexp buf).data i = buf.data i) ∧
    (∀ msqrt buf i, i < buf.len →
      ¬ inInterior buf.width buf.height 1 (i / 4 % buf.width) (i / 4 / buf.width) →
      (applySobelEdgeDetection msqrt buf).data i = 0) := by
  refine ⟨fun buf i h => ⟨?_, ?_, ?_⟩, fun mexp buf i h => ?_, fun msqrt buf i hil h => ?_⟩
  · simp [sharpenImage, h]
  · simp [applyGaussianBlur, h]
  · simp [applyMedianFilter, h]
  · simp [applyBilateralFilter, h]
  · simp [applySobelEdgeDetection, h, hil]

/-- Witness for the amended C3: the Gaussian blur leaves the border pixel
of a concrete 1×1 buffer untouched. -/
theorem qrscanner_c3_witness :
    (applyGaussianBlur cexSobelBuf).data 0 = cexSobelBuf.data 0 :=
  (qrscanner_c3_amended.1 cexSobelBuf 0 (by decide)).2.1

/-- A 1×1 buffer whose pixel has alpha 7 (and color samples 10). -/
def alphaCexBuf : ImageData := ⟨1, 1, fun i => if i = 3 then 7 else 10⟩

/-- C4 counterexample: the claim says every color-rewriting filter leaves
every alpha sample equal to 255, but `convertToGrayscale` never writes the
alpha channel: an input alpha of 7 stays 7. -/
theorem qrscanner_c4_counterexample :
    (convertToGrayscale alphaCexBuf).data 3 ≠ 255 ∧
      (convertToGrayscale alphaCexBuf).data 3 = 7 := by
  decide

/-- C4 (amended): grayscale, contrast stretch, sharpen, adaptive threshold,
Otsu, histogram equalization and the bilateral filter preserve every alpha
sample; the fixed threshold forces alpha 255 everywhere; Gaussian blur and
median force alpha 255 on interior pixels and preserve it elsewhere; Sobel
sets interior alpha to 255 and border alpha to 0. -/
theorem qrscanner_c4_amended :
    (∀ buf i, i % 4 = 3 →
      (convertToGrayscale buf).data i = buf.data i ∧
      (enhanceImageContrast buf).data i = buf.data i ∧
      (sharpenImage buf).data i = buf.data i ∧
      (applyAdaptiveThreshold buf).data i = buf.data i ∧
      (applyOtsuThreshold buf).data i = buf.data i ∧
      (applyHistogramEqualization buf).data i = buf.data i) ∧
    (∀ mexp buf i, i % 4 = 3 → (applyBilateralFilter mexp buf).data i = buf.data i) ∧
    (∀ t buf i, i < buf.len → i % 4 = 3 → (fixedThresholdFilter t buf).data i = 255) ∧
    (∀ buf i, i % 4 = 3 →
      (i < buf.len →
        inInterior buf.width buf.height 1 (i / 4 % buf.width) (i / 4 / buf.width) →
        (applyGaussianBlur buf).data i = 255 ∧ (applyMedianFilter buf).data i = 255) ∧
      (¬ inInterior buf.width buf.height 1 (i / 4 % buf.width) (i / 4 / buf.width) →
        (applyGaussianBlur buf).data i = buf.data i ∧
        (applyMedianFilter buf).data i = buf.data i)) ∧
    (∀ msqrt buf i, i < buf.len → i % 4 = 3 →
      (inInterior buf.width buf.height 1 (i / 4 % buf.width) (i / 4 / buf.width) →
        (applySobelEdgeDetection msqrt buf).data i = 255) ∧
      (¬ inInterior buf.width buf.height 1 (i / 4 % buf.width) (i / 4 / buf.width) →
        (applySobelEdgeDetection msqrt buf).data i = 0)) := by
  refine ⟨fun buf i h => ⟨?_, ?_, ?_, ?_, ?_, ?_⟩, fun mexp buf i h => ?_,
    fun t buf i hil h => ?_,
    fun buf i h => ⟨fun hil hin => ⟨?_, ?_⟩, fun hin => ⟨?_, ?_⟩⟩,
    fun msqrt buf i hil h => ⟨fun hin => ?_, fun hin => ?_⟩⟩
  · simp [convertToGrayscale, h]
  · simp [enhanceImageContrast, h]
  · simp [sharpenImage, h]
  · simp [applyAdaptiveThreshold, h]
  · simp [applyOtsuThreshold, h]
  · simp [applyHistogramEqualization, h]
  · simp [applyBilateralFilter, h]
  · simp [fixedThresholdFilter, h, hil]
  · simp [applyGaussianBlur, hil, hin, h]
  · simp [applyMedianFilter, hil, hin, h]
  · simp only [applyGaussianBlur]
    rw [if_neg (fun hc : i < buf.len ∧ inInterior buf.width buf.height 1
      (i / 4 % buf.width) (i / 4 / buf.width) => hin hc.2)]
  · simp only [applyMedianFilter]
    rw [if_neg (fun hc : i < buf.len ∧ inInterior buf.width buf.height 1
      (i / 4 % buf.width) (i / 4 / buf.width) => hin hc.2)]
  · simp [applySobelEdgeDetection, hil, hin, h]
  · simp [applySobelEdgeDetection, hil, hin]

/-- Witness for the amended C4: grayscale preserves the concrete alpha
sample 7 of `alphaCexBuf`. -/
theorem qrscanner_c4_witness :
    (convertToGrayscale alphaCexBuf).data 3 = alphaCexBuf.data 3 :=
  (qrscanner_c4_amended.1 alphaCexBuf 3 rfl).1

/-- A 3×3 buffer whose red and blue samples are all 0 and whose green and
alpha samples are all 255. -/
def medianCexBuf : ImageData := ⟨3, 3, fun i => if i % 4 = 1 then 255 else if i % 4 = 3 then 255 else 0⟩

/-- C5 counterexample: the claim says the median filter writes, into the
green channel, the median of the nine green input samples (all 255 here);
the code instead writes the median of the nine red samples (all 0): the
interior pixel's green output is 0, while its green input was 255. -/
theorem qrscanner_c5_counterexample :
    (applyMedianFilter medianCexBuf).data 17 = 0 ∧ medianCexBuf.data 17 = 255 := by
  decide

/-- C5 (amended): on interior pixels the median filter writes, to each of
R, G and B, the value at index 4 of the ascending sort of the nine RED
samples of the 3×3 neighbourhood (green and blue inputs are ignored), and
forces alpha to 255. -/
theorem qrscanner_c5_amended : ∀ buf i, i < buf.len →
    inInterior buf.width buf.height 1 (i / 4 % buf.width) (i / 4 / buf.width) →
    (i % 4 ≠ 3 →
      ∃ l, (neighborhood3x3 buf (i / 4 % buf.width) (i / 4 / buf.width)).Perm l ∧
        l.Sorted (· ≤ ·) ∧ (applyMedianFilter buf).data i = l.getD 4 0) ∧
    (i % 4 = 3 → (applyMedianFilter buf).data i = 255) := by
  intro buf i hil hin
  constructor
  · intro h3
    refine ⟨(neighborhood3x3 buf (i / 4 % buf.width) (i / 4 / buf.width)).insertionSort (· ≤ ·),
      (List.perm_insertionSort _ _).symm, List.sorted_insertionSort _ _, ?_⟩
    simp [applyMedianFilter, hil, hin, h3, median9]
  · intro h3
    simp [applyMedianFilter, hil, hin, h3]

/-- Witness for the amended C5: the interior pixel's alpha sample of the
concrete buffer is forced to 255. -/
theorem qrscanner_c5_witness :
    (applyMedianFilter medianCexBuf).data 19 = 255 :=
  (qrscanner_c5_amended medianCexBuf 19 (by decide) (by decide)).2 rfl

/-- The orchestrator loop skips every miss: if all strategy results in the
list are misses, it yields `none`. -/
theorem runMethods_none_iff (l : List (Except DomError (Option String))) :
    runMethods l = none ↔ ∀ r ∈ l, jsTruthyResult r = none := by
  induction l with
  | nil => simp [runMethods]
  | cons r rest ih =>
    constructor
    · intro hl x hx
      rcases List.mem_cons.1 hx with rfl | hx'
      · cases h : jsTruthyResult x with
        | none => rfl
        | some s =>
          simp only [runMethods, h] at hl
          exact absurd hl (by simp)
      · cases h : jsTruthyResult r with
        | some s =>
          simp only [runMethods, h] at hl
          exact absurd hl (by simp)
        | none =>
          simp only [runMethods, h] at hl
          exact ih.1 hl x hx'
    · intro hall
      have hr := hall r (List.mem_cons_self r rest)
      simp only [runMethods, hr]
      exact ih.2 (fun x hx => hall x (List.mem_cons_of_mem r hx))

/-- The orchestrator loop short-circuits: with every earlier result a miss
and the current one truthy, the loop returns the current decoded text, and
the remaining entries have no effect on the result. -/
theorem runMethods_prefix_found {pre : List (Except DomError (Option String))}
    {r : Except DomError (Option String)} {post : List (Except DomError (Option String))}
    {t : String} (hpre : ∀ x ∈ pre, jsTruthyResult x = none)
    (hr : jsTruthyResult r = some t) :
    runMethods (pre ++ r :: post) = some t := by
  induction pre with
  | nil => simp only [List.nil_append, runMethods, hr]
  | cons a as ih =>
    have ha := hpre a (List.mem_cons_self a as)
    simp only [List.cons_append, runMethods, ha]
    exact ih (fun x hx => hpre x (List.mem_cons_of_mem a hx))

/-- The ZXing pre-pass loop yields `none` exactly when every scale attempt
misses. -/
theorem zxingLoop_none_iff (host : Host) (img : SourceImage) (l : List ℚ) :
    zxingLoop host img l = none ↔ ∀ s ∈ l, zxingAttempt host img s = none := by
  induction l with
  | nil => simp [zxingLoop]
  | cons s rest ih =>
    constructor
    · intro hl x hx
      rcases List.mem_cons.1 hx with rfl | hx'
      · cases h : zxingAttempt host img x with
        | none => rfl
        | some u =>
          simp only [zxingLoop, h] at hl
          exact absurd hl (by simp)
      · cases h : zxingAttempt host img s with
        | some u =>
          simp only [zxingLoop, h] at hl
          exact absurd hl (by simp)
        | none =>
          simp only [zxingLoop, h] at hl
          exact ih.1 hl x hx'
    · intro hall
      have hs := hall s (List.mem_cons_self s rest)
      simp only [zxingLoop, hs]
      exact ih.2 (fun x hx => hall x (List.mem_cons_of_mem s hx))

/-- The ZXing pre-pass loop short-circuits on the first truthy attempt. -/
theorem zxingLoop_prefix_found {host : Host} {img : SourceImage}
    {pre : List ℚ} {s : ℚ} {post : List ℚ} {t : String}
    (hpre : ∀ u ∈ pre, zxingAttempt host img u = none)
    (hs : zxingAttempt host img s = some t) :
    zxingLoop host img (pre ++ s :: post) = some t := by
  induction pre with
  | nil => simp only [List.nil_append, zxingLoop, hs]
  | cons a as ih =>
    have ha := hpre a (List.mem_cons_self a as)
    simp only [List.cons_append, zxingLoop, ha]
    exact ih (fun x hx => hpre x (List.mem_cons_of_mem a hx))

/-- The fallback orchestrator is exhausted exactly when every one of its
listed strategies misses. -/
theorem tryMultiple_none_iff (host : Host) (img : SourceImage) :
    tryMultipleDetectionMethods host img = none ↔
      ∀ m ∈ methods, jsTruthyResult (interp host img m.2) = none := by
  unfold tryMultipleDetectionMethods
  rw [runMethods_none_iff]
  constructor
  · intro h m hm
    exact h _ (List.mem_map_of_mem _ hm)
  · intro h x hx
    obtain ⟨m, hm, rfl⟩ := List.mem_map.1 hx
    exact h m hm

/-- C1 (confirmed): the fallback orchestrator holds exactly the spec's 13
Strategy Descriptors in the spec's order; it returns the decoded text of
the first strategy whose result is truthy, with every earlier strategy a
miss and the later strategies irrelevant to the result; and it returns the
exhaustion signal `none` exactly when all 13 strategies miss. -/
theorem qrscanner_c1 :
    methods.map (fun m => stratDescriptor m.2) = specStrategyList ∧
    methods.length = 13 ∧
    (∀ host img pre m post t, methods = pre ++ m :: post →
      (∀ m' ∈ pre, jsTruthyResult (interp host img m'.2) = none) →
      jsTruthyResult (interp host img m.2) = some t →
      tryMultipleDetectionMethods host img = some t) ∧
    (∀ host img, tryMultipleDetectionMethods host img = none ↔
      ∀ m ∈ methods, jsTruthyResult (interp host img m.2) = none) := by
  refine ⟨rfl, rfl, ?_, ?_⟩
  · intro host img pre m post t hsplit hpre hm
    unfold tryMultipleDetectionMethods
    rw [hsplit, List.map_append, List.map_cons]
    refine runMethods_prefix_found (fun x hx => ?_) hm
    obtain ⟨m', hm', rfl⟩ := List.mem_map.1 hx
    exact hpre m' hm'
  · exact tryMultiple_none_iff

/-- A host whose decode engines always miss, for concrete instantiation. -/
def host0 : Host := ⟨fun _ _ => none, fun _ => none, fun q => q, fun q => q⟩

/-- A host whose decode engines always report the text "x". -/
def hostYes : Host := ⟨fun _ _ => some "x", fun _ => some "x", fun q => q, fun q => q⟩

/-- A 4×4 source image whose resampler returns all-zero buffers. -/
def img4 : SourceImage := ⟨4, 4, fun w h => ⟨w, h, fun _ => 0⟩⟩

/-- Witness for C1: with a host whose fast engine decodes "x", the very
first strategy (Original, scale 1) succeeds and its text is returned. -/
theorem qrscanner_c1_witness : tryMultipleDetectionMethods hostYes img4 = some "x" :=
  qrscanner_c1.2.2.1 hostYes img4 []
    ("Original", StratKind.preprocessing false false false false false 1)
    (methods.drop 1) "x" rfl (fun m' hm' => absurd hm' (List.not_mem_nil m'))
    (by simp [interp, scanWithPreprocessing, getScaledImageData, natFloor,
      hostYes, img4, jsTruthyResult, Except.bind, mul_one])

/-- C2 (confirmed): on a still image the orchestrator runs the ZXing robust
pre-pass over exactly the scales 1.0, 0.75, 0.5, 1.5, 2.0 in that order
with no pixel filtering (the pre-pass depends on the host only through its
robust engine), short-circuits on the first decoded text, falls back to the
13-strategy fast-engine list only when all 5 scales miss, and reports "not
found" when both phases are exhausted. -/
theorem qrscanner_c2 :
    zxingScales = [1, 3/4, 1/2, 3/2, 2] ∧
    (∀ host img pre s post t, zxingScales = pre ++ s :: post →
      (∀ u ∈ pre, zxingAttempt host img u = none) →
      zxingAttempt host img s = some t →
      scanImageFile host img = .found t) ∧
    (∀ host img, (∀ u ∈ zxingScales, zxingAttempt host img u = none) →
      scanImageFile host img =
        (match tryMultipleDetectionMethods host img with
         | some t => Outcome.found t
         | none => Outcome.notFound)) ∧
    (∀ host img, (∀ u ∈ zxingScales, zxingAttempt host img u = none) →
      (∀ m ∈ methods, jsTruthyResult (interp host img m.2) = none) →
      scanImageFile host img = .notFound) ∧
    (∀ h1 h2 img, h1.zxingDecode = h2.zxingDecode →
      zxingPrePass h1 img = zxingPrePass h2 img) := by
  refine ⟨rfl, ?_, ?_, ?_, ?_⟩
  · intro host img pre s post t hsplit hpre hs
    have hpp : zxingPrePass host img = some t := by
      unfold zxingPrePass
      rw [hsplit]
      exact zxingLoop_prefix_found hpre hs
    unfold scanImageFile
    rw [hpp]
  · intro host img hall
    have hpp : zxingPrePass host img = none :=
      (zxingLoop_none_iff host img zxingScales).2 hall
    unfold scanImageFile
    rw [hpp]
  · intro host img hall hmiss
    have hpp : zxingPrePass host img = none :=
      (zxingLoop_none_iff host img zxingScales).2 hall
    have htm : tryMultipleDetectionMethods host img = none :=
      (tryMultiple_none_iff host img).2 hmiss
    unfold scanImageFile
    rw [hpp, htm]
  · intro h1 h2 img hzx
    have hloop : ∀ l, zxingLoop h1 img l = zxingLoop h2 img l := by
      intro l
      induction l with
      | nil => rfl
      | cons s rest ih => simp only [zxingLoop, zxingAttempt, hzx, ih]
    exact hloop zxingScales

/-- Witness for C2: with a host whose robust engine decodes "x", the first
pre-pass scale succeeds and the orchestrator reports that text. -/
theorem qrscanner_c2_witness : scanImageFile hostYes img4 = .found "x" :=
  qrscanner_c2.2.1 hostYes img4 [] 1 [3/4, 1/2, 3/2, 2] "x" rfl
    (fun u hu => absurd hu (List.not_mem_nil u))
    (by simp [zxingAttempt, natFloor, hostYes, img4, mul_one])

/-- C9 (confirmed): no entry of the 13-strategy list is the adaptive
threshold strategy, and the result of the whole still-image pipeline is
unchanged when the adaptive-threshold scan routine is replaced by an
arbitrary function — `scanWithAdaptiveThreshold` (and with it
`applyAdaptiveThreshold`) is unreachable from the still-image entry point. -/
theorem qrscanner_c9 :
    (∀ m ∈ methods, ∀ sc : ℚ, m.2 ≠ StratKind.adaptiveScan sc) ∧
    (∀ host img adaptive, tryMultipleGen host img adaptive =
      tryMultipleDetectionMethods host img) ∧
    (∀ host img adaptive, scanImageFileGen host img adaptive =
      scanImageFile host img) := by
  refine ⟨?_, fun host img adaptive => rfl, fun host img adaptive => rfl⟩
  intro m hm sc
  fin_cases hm <;> simp

/-- Witness for C9: the first listed strategy is not the adaptive one, and
swapping the adaptive routine for one that always errors leaves the
pipeline's outcome unchanged on a concrete host and image. -/
theorem qrscanner_c9_witness :
    ("Original", StratKind.preprocessing false false false false false 1).2 ≠
      StratKind.adaptiveScan 1 ∧
    scanImageFileGen host0 img4 (fun _ => .error .indexSize) = scanImageFile host0 img4 :=
  ⟨qrscanner_c9.1 _ (by simp [methods]) 1, qrscanner_c9.2.2 host0 img4 _⟩

/-- C8 (confirmed): for every source image and scale factor, the resampling
prologue either yields a buffer with non-zero width and height or throws
`IndexSizeError` before the decoder is ever consulted (the error is the
same for every host); in particular scale 1/100 on a 10×10 image always
errors and never yields a zero-dimension buffer. -/
theorem qrscanner_c8 :
    (∀ (host : Host) (img : SourceImage) (g c sh b e : Bool) (scale : ℚ),
      (∀ w h, (img.resample w h).width = w ∧ (img.resample w h).height = h) →
      (getScaledImageData img scale = .ok (img.resample (natFloor ((img.width : ℚ) * scale))
          (natFloor ((img.height : ℚ) * scale))) ∧
        0 < (img.resample (natFloor ((img.width : ℚ) * scale))
          (natFloor ((img.height : ℚ) * scale))).width ∧
        0 < (img.resample (natFloor ((img.width : ℚ) * scale))
          (natFloor ((img.height : ℚ) * scale))).height ∧
        scanWithPreprocessing host img g c sh b e scale ≠ .error .indexSize) ∨
      ((natFloor ((img.width : ℚ) * scale) = 0 ∨ natFloor ((img.height : ℚ) * scale) = 0) ∧
        ∀ host' : Host, scanWithPreprocessing host' img g c sh b e scale =
          .error .indexSize)) ∧
    (∀ (host : Host) (r : ℕ → ℕ → ImageData) (g c sh b e : Bool),
      scanWithPreprocessing host ⟨10, 10, r⟩ g c sh b e (1/100) = .error .indexSize) := by
  constructor
  · intro host img g c sh b e scale hres
    by_cases hz : natFloor ((img.width : ℚ) * scale) = 0 ∨ natFloor ((img.height : ℚ) * scale) = 0
    · refine Or.inr ⟨hz, fun host' => ?_⟩
      simp only [scanWithPreprocessing, getScaledImageData]
      rw [if_pos hz]
      rfl
    · push_neg at hz
      refine Or.inl ⟨?_, ?_, ?_, ?_⟩
      · simp only [getScaledImageData]
        rw [if_neg (not_or.mpr ⟨hz.1, hz.2⟩)]
      · exact (hres _ _).1 ▸ Nat.pos_of_ne_zero hz.1
      · exact (hres _ _).2 ▸ Nat.pos_of_ne_zero hz.2
      · simp only [scanWithPreprocessing, getScaledImageData]
        rw [if_neg (not_or.mpr ⟨hz.1, hz.2⟩)]
        simp
  · intro host r g c sh b e
    have hfl : natFloor (((⟨10, 10, r⟩ : SourceImage).width : ℚ) * (1/100)) = 0 := by
      show natFloor (((10 : ℕ) : ℚ) * (1/100)) = 0
      unfold natFloor
      have h1 : ((10 : ℕ) : ℚ) * (1/100) = 1/10 := by norm_num
      rw [h1]
      have h2 : ⌊(1/10 : ℚ)⌋ = 0 := by
        rw [Int.floor_eq_zero_iff, Set.mem_Ico]
        constructor <;> norm_num
      rw [h2]
      rfl
    simp only [scanWithPreprocessing, getScaledImageData]
    rw [if_pos (Or.inl hfl)]
    rfl

/-- Witness for C8: at scale 1 on the concrete 4×4 image, the first
disjunct holds; the hypotheses are discharged at a concrete resampler. -/
theorem qrscanner_c8_witness :
    getScaledImageData img4 1 = .ok (img4.resample (natFloor ((img4.width : ℚ) * 1))
        (natFloor ((img4.height : ℚ) * 1))) ∧
    0 < (img4.resample (natFloor ((img4.width : ℚ) * 1))
        (natFloor ((img4.height : ℚ) * 1))).width ∧
    0 < (img4.resample (natFloor ((img4.width : ℚ) * 1))
        (natFloor ((img4.height : ℚ) * 1))).height := by
  have hfl : natFloor ((img4.width : ℚ) * 1) = 4 := by
    show natFloor (((4 : ℕ) : ℚ) * 1) = 4
    rw [mul_one]
    unfold natFloor
    rw [Int.floor_natCast]
    rfl
  rcases qrscanner_c8.1 host0 img4 false false false false false 1
      (fun _ _ => ⟨rfl, rfl⟩) with h | h
  · exact ⟨h.1, h.2.1, h.2.2.1⟩
  · rcases h.1 with h0 | h0
    · rw [hfl] at h0
      exact absurd h0 (by omega)
    · rw [show natFloor ((img4.height : ℚ) * 1) = 4 from hfl] at h0
      exact absurd h0 (by omega)

/-- Pixel `(x, y)` with `x < w` and `y < h` has flat pixel index below
`w * h`. -/
theorem pixIndex_lt {w h x y : ℕ} (hx : x < w) (hy : y < h) : y * w + x < w * h := by
  calc y * w + x < y * w + w := by omega
    _ = (y + 1) * w := by ring
    _ ≤ h * w := Nat.mul_le_mul_right w hy
    _ = w * h := Nat.mul_comm h w

/-- Pointwise description of `applyGaussianBlur`. -/
theorem applyGaussianBlur_data (buf : ImageData) (i : ℕ) :
    (applyGaussianBlur buf).data i =
      if i < buf.len ∧ inInterior buf.width buf.height 1 (i / 4 % buf.width) (i / 4 / buf.width)
      then (if i % 4 = 3 then 255
        else clampU8 ((gaussianSum buf (i / 4 % buf.width) (i / 4 / buf.width) : ℚ) / 16))
      else buf.data i := rfl

/-- Pointwise description of `applyMedianFilter`. -/
theorem applyMedianFilter_data (buf : ImageData) (i : ℕ) :
    (applyMedianFilter buf).data i =
      if i < buf.len ∧ inInterior buf.width buf.height 1 (i / 4 % buf.width) (i / 4 / buf.width)
      then (if i % 4 = 3 then 255
        else median9 buf (i / 4 % buf.width) (i / 4 / buf.width))
      else buf.data i := rfl

/-- Two buffers of the same width agreeing on red samples have equal
`redAt` on in-range coordinates. -/
theorem redAt_congr (b1 b2 : ImageData) (hw : b1.width = b2.width)
    (hred : ∀ p < b1.width * b1.height, b1.data (4 * p) = b2.data (4 * p))
    (x y : ℕ) (hx : x < b1.width) (hy : y < b1.height) :
    redAt b1 x y = redAt b2 x y := by
  unfold redAt
  rw [← hw]
  exact hred _ (pixIndex_lt hx hy)

/-- The Gaussian-weighted sum reads only red samples of in-bounds
neighbours of an interior pixel. -/
theorem gaussianSum_congr (b1 b2 : ImageData) (hw : b1.width = b2.width)
    (hred : ∀ p < b1.width * b1.height, b1.data (4 * p) = b2.data (4 * p))
    (x y : ℕ) (hin : inInterior b1.width b1.height 1 x y) :
    gaussianSum b1 x y = gaussianSum b2 x y := by
  obtain ⟨h1, h2, h3, h4⟩ := hin
  unfold gaussianSum
  refine Finset.sum_congr rfl (fun k hk => ?_)
  have hk9 := Finset.mem_range.1 hk
  rw [redAt_congr b1 b2 hw hred _ _ (by omega) (by omega)]

/-- The 3×3 median reads only red samples of in-bounds neighbours of an
interior pixel. -/
theorem median9_congr (b1 b2 : ImageData) (hw : b1.width = b2.width)
    (hred : ∀ p < b1.width * b1.height, b1.data (4 * p) = b2.data (4 * p))
    (x y : ℕ) (hin : inInterior b1.width b1.height 1 x y) :
    median9 b1 x y = median9 b2 x y := by
  obtain ⟨h1, h2, h3, h4⟩ := hin
  unfold median9 neighborhood3x3
  rw [redAt_congr b1 b2 hw hred (x-1) (y-1) (by omega) (by omega),
    redAt_congr b1 b2 hw hred x (y-1) (by omega) (by omega),
    redAt_congr b1 b2 hw hred (x+1) (y-1) (by omega) (by omega),
    redAt_congr b1 b2 hw hred (x-1) y (by omega) (by omega),
    redAt_congr b1 b2 hw hred x y (by omega) (by omega),
    redAt_congr b1 b2 hw hred (x+1) y (by omega) (by omega),
    redAt_congr b1 b2 hw hred (x-1) (y+1) (by omega) (by omega),
    redAt_congr b1 b2 hw hred x (y+1) (by omega) (by omega),
    redAt_congr b1 b2 hw hred (x+1) (y+1) (by omega) (by omega)]

/-- C10 (confirmed): Gaussian blur and median filter are functions of the
red input channel (and of the border samples they copy through): two
buffers of equal dimensions that agree on every pixel's red sample and on
every border sample produce identical output arrays under both filters. -/
theorem qrscanner_c10 (b1 b2 : ImageData)
    (hw : b1.width = b2.width) (hh : b1.height = b2.height)
    (hred : ∀ p < b1.width * b1.height, b1.data (4 * p) = b2.data (4 * p))
    (hborder : ∀ i < b1.len,
      ¬ inInterior b1.width b1.height 1 (i / 4 % b1.width) (i / 4 / b1.width) →
      b1.data i = b2.data i) :
    (∀ i < b1.len, (applyGaussianBlur b1).data i = (applyGaussianBlur b2).data i) ∧
    (∀ i < b1.len, (applyMedianFilter b1).data i = (applyMedianFilter b2).data i) := by
  have hlen : b1.len = b2.len := by
    unfold ImageData.len
    rw [hw, hh]
  constructor
  · intro i hi
    rw [applyGaussianBlur_data, applyGaussianBlur_data, ← hw, ← hh, ← hlen]
    by_cases hin : inInterior b1.width b1.height 1 (i / 4 % b1.width) (i / 4 / b1.width)
    · have hc : i < b1.len ∧
          inInterior b1.width b1.height 1 (i / 4 % b1.width) (i / 4 / b1.width) := ⟨hi, hin⟩
      rw [if_pos hc, if_pos hc, gaussianSum_congr b1 b2 hw hred _ _ hin]
    · have hc : ¬ (i < b1.len ∧
          inInterior b1.width b1.height 1 (i / 4 % b1.width) (i / 4 / b1.width)) :=
        fun hc => hin hc.2
      rw [if_neg hc, if_neg hc]
      exact hborder i hi hin
  · intro i hi
    rw [applyMedianFilter_data, applyMedianFilter_data, ← hw, ← hh, ← hlen]
    by_cases hin : inInterior b1.width b1.height 1 (i / 4 % b1.width) (i / 4 / b1.width)
    · have hc : i < b1.len ∧
          inInterior b1.width b1.height 1 (i / 4 % b1.width) (i / 4 / b1.width) := ⟨hi, hin⟩
      rw [if_pos hc, if_pos hc, median9_congr b1 b2 hw hred _ _ hin]
    · have hc : ¬ (i < b1.len ∧
          inInterior b1.width b1.height 1 (i / 4 % b1.width) (i / 4 / b1.width)) :=
        fun hc => hin hc.2
      rw [if_neg hc, if_neg hc]
      exact hborder i hi hin

/-- Two 3×3 buffers agreeing on reds and border but with different interior
green samples. -/
def c10BufA : ImageData := ⟨3, 3, fun _ => 0⟩

/-- Like `c10BufA` but with green sample 9 at the centre pixel. -/
def c10BufB : ImageData := ⟨3, 3, fun i => if i = 17 then 9 else 0⟩

/-- Witness for C10: the two filters give the same centre output sample on
the two concrete buffers that differ only in an interior green sample. -/
theorem qrscanner_c10_witness :
    (applyGaussianBlur c10BufA).data 16 = (applyGaussianBlur c10BufB).data 16 ∧
    (applyMedianFilter c10BufA).data 16 = (applyMedianFilter c10BufB).data 16 := by
  have hmain := qrscanner_c10 c10BufA c10BufB rfl rfl
    (by intro p hp
        show (0 : ℕ) = if 4 * p = 17 then 9 else 0
        rw [if_neg (by omega)])
    (by intro i hi hb
        show (0 : ℕ) = if i = 17 then 9 else 0
        by_cases h17 : i = 17
        · subst h17
          exact absurd (by decide) hb
        · rw [if_neg h17])
  exact ⟨hmain.1 16 (by decide), hmain.2 16 (by decide)⟩

/-- Pointwise description of `applyHistogramEqualization`. -/
theorem applyHistogramEqualization_data (buf : ImageData) (i : ℕ) :
    (applyHistogramEqualization buf).data i =
      if i < buf.len ∧ i % 4 ≠ 3 then
        toUint8Clamp (histEqLookup buf (buf.data (4 * (i / 4))))
      else buf.data i := rfl

/-- On a uniform image of intensity `v`, the histogram is concentrated at
`v`. -/
theorem histogram_uniform (buf : ImageData) (v : ℕ)
    (huni : ∀ p < buf.width * buf.height, buf.data (4 * p) = v) (u : ℕ) :
    histogram buf u = if u = v then buf.width * buf.height else 0 := by
  unfold histogram
  by_cases huv : u = v
  · subst huv
    rw [if_pos rfl, Finset.filter_true_of_mem (fun p hp => huni p (Finset.mem_range.1 hp)),
      Finset.card_range]
  · rw [if_neg huv, Finset.card_eq_zero, Finset.filter_eq_empty_iff]
    intro p hp heq
    exact huv ((huni p (Finset.mem_range.1 hp) ▸ heq).symm ▸ rfl)

/-- On a uniform image of intensity `v`, the cumulative distribution is the
step function jumping to `total` at `v`. -/
theorem cdf_uniform (buf : ImageData) (v : ℕ)
    (huni : ∀ p < buf.width * buf.height, buf.data (4 * p) = v) (i : ℕ) :
    cdf buf i = if v ≤ i then buf.width * buf.height else 0 := by
  unfold cdf
  by_cases hvi : v ≤ i
  · rw [if_pos hvi,
      Finset.sum_eq_single_of_mem v (Finset.mem_range.2 (by omega))
        (fun b _ hbv => by rw [histogram_uniform buf v huni b, if_neg hbv]),
      histogram_uniform buf v huni v, if_pos rfl]
  · rw [if_neg hvi]
    refine Finset.sum_eq_zero (fun j hj => ?_)
    have hjv : j ≠ v := by
      have := Finset.mem_range.1 hj
      omega
    rw [histogram_uniform buf v huni j, if_neg hjv]

/-- On a nonempty uniform image, the `cdfMin` search finds the total pixel
count (the boundary case `total == cdfMin`). -/
theorem cdfMin_uniform (buf : ImageData) (v : ℕ) (hv : v ≤ 255)
    (huni : ∀ p < buf.width * buf.height, buf.data (4 * p) = v)
    (htot : buf.width * buf.height ≠ 0) :
    cdfMin buf = buf.width * buf.height := by
  unfold cdfMin
  cases hfind : (List.range 256).find? (fun i => decide (0 < cdf buf i)) with
  | some j =>
    have hj : 0 < cdf buf j := by
      have h := List.find?_some hfind
      simpa using h
    show cdf buf j = buf.width * buf.height
    by_cases hvj : v ≤ j
    · rw [cdf_uniform buf v huni, if_pos hvj]
    · rw [cdf_uniform buf v huni, if_neg hvj] at hj
      exact absurd hj (lt_irrefl 0)
  | none =>
    exfalso
    refine (List.find?_eq_none.1 hfind) v (List.mem_range.2 (by omega)) ?_
    refine decide_eq_true ?_
    rw [cdf_uniform buf v huni, if_pos (le_refl v)]
    exact Nat.pos_of_ne_zero htot

/-- C7 (confirmed): on a uniform image (`total == cdfMin` boundary),
histogram equalization completes without error: the zero denominator gives
NaN under JavaScript division, `Uint8ClampedArray` stores NaN as 0, so
every color sample becomes 0 (a clamped in-range value) and every alpha
sample is unchanged — a valid buffer, never an exception. -/
theorem qrscanner_c7 (buf : ImageData) (v : ℕ) (hv : v ≤ 255)
    (huni : ∀ p < buf.width * buf.height, buf.data (4 * p) = v) :
    (applyHistogramEqualization buf).width = buf.width ∧
    (applyHistogramEqualization buf).height = buf.height ∧
    (∀ i, i % 4 = 3 → (applyHistogramEqualization buf).data i = buf.data i) ∧
    (∀ i < buf.len, i % 4 ≠ 3 → (applyHistogramEqualization buf).data i = 0) ∧
    (∀ i < buf.len, (applyHistogramEqualization buf).data i ≤ 255 ∨
      (applyHistogramEqualization buf).data i = buf.data i) := by
  have halpha : ∀ i, i % 4 = 3 → (applyHistogramEqualization buf).data i = buf.data i := by
    intro i h3
    rw [applyHistogramEqualization_data, if_neg (fun hc => hc.2 h3)]
  have hcol : ∀ i < buf.len, i % 4 ≠ 3 → (applyHistogramEqualization buf).data i = 0 := by
    intro i hi h3
    have hc : i < buf.len ∧ i % 4 ≠ 3 := ⟨hi, h3⟩
    rw [applyHistogramEqualization_data, if_pos hc]
    have htot : buf.width * buf.height ≠ 0 := by
      intro h0
      unfold ImageData.len at hi
      omega
    have hp : i / 4 < buf.width * buf.height := by
      unfold ImageData.len at hi
      omega
    rw [huni _ hp]
    unfold histEqLookup
    rw [if_pos hv, cdf_uniform buf v huni, if_pos (le_refl v),
      cdfMin_uniform buf v hv huni htot, sub_self]
    simp [jsDivNum, jsMul255, jsRound, toUint8Clamp]
  refine ⟨rfl, rfl, halpha, hcol, ?_⟩
  intro i hi
  by_cases h3 : i % 4 = 3
  · exact Or.inr (halpha i h3)
  · refine Or.inl ?_
    rw [hcol i hi h3]
    exact Nat.zero_le 255

/-- A 1×1 buffer with every sample 5: a uniform (flat) image. -/
def uni5Buf : ImageData := ⟨1, 1, fun _ => 5⟩

/-- Witness for C7: on the concrete flat buffer, equalization stores 0 in
the red sample of the single pixel. -/
theorem qrscanner_c7_witness : (applyHistogramEqualization uni5Buf).data 0 = 0 :=
  (qrscanner_c7 uni5Buf 5 (by omega) (fun p _ => rfl)).2.2.2.1 0 (by decide) (by decide)

/-- A left fold by a function that fixes the accumulator on every element
of the list leaves the accumulator unchanged. -/
theorem foldlFixed {α β : Type} (f : β → α → β) (s : β) (l : List α)
    (h : ∀ a ∈ l, f s a = s) : l.foldl f s = s := by
  induction l with
  | nil => rfl
  | cons a as ih =>
    rw [List.foldl_cons, h a (List.mem_cons_self a as)]
    exact ih (fun x hx => h x (List.mem_cons_of_mem a hx))

/-- On a buffer whose red samples are all 0 or 255, the histogram vanishes
away from bins 0 and 255. -/
theorem histogram_binary_support (buf : ImageData)
    (hred01 : ∀ p < buf.width * buf.height, buf.data (4 * p) = 0 ∨ buf.data (4 * p) = 255)
    (u : ℕ) (hu0 : u ≠ 0) (hu255 : u ≠ 255) : histogram buf u = 0 := by
  unfold histogram
  rw [Finset.card_eq_zero, Finset.filter_eq_empty_iff]
  intro p hp heq
  rcases hred01 p (Finset.mem_range.1 hp) with h | h
  · exact hu0 (heq.symm.trans h)
  · exact hu255 (heq.symm.trans h)

/-- On a buffer whose red samples are all 0 or 255, the two occupied bins
partition the pixels. -/
theorem histogram_binary_total (buf : ImageData)
    (hred01 : ∀ p < buf.width * buf.height, buf.data (4 * p) = 0 ∨ buf.data (4 * p) = 255) :
    histogram buf 0 + histogram buf 255 = buf.width * buf.height := by
  unfold histogram
  have hsplit := Finset.filter_card_add_filter_neg_card_eq_card
    (s := Finset.range (buf.width * buf.height)) (p := fun p => buf.data (4 * p) = 0)
  rw [Finset.card_range] at hsplit
  have hfeq : (Finset.range (buf.width * buf.height)).filter (fun p => ¬ buf.data (4 * p) = 0) =
      (Finset.range (buf.width * buf.height)).filter (fun p => buf.data (4 * p) = 255) := by
    refine Finset.filter_congr (fun p hp => ?_)
    rcases hred01 p (Finset.mem_range.1 hp) with h | h
    · simp [h]
    · simp [h]
  rw [hfeq] at hsplit
  exact hsplit

/-- On a binarized buffer the weighted intensity sum is carried entirely by
bin 255. -/
theorem intensitySum_binary (buf : ImageData)
    (hred01 : ∀ p < buf.width * buf.height, buf.data (4 * p) = 0 ∨ buf.data (4 * p) = 255) :
    intensitySum buf = 255 * histogram buf 255 := by
  unfold intensitySum
  rw [Finset.sum_eq_single 255]
  · intro b _ hb255
    by_cases hb0 : b = 0
    · subst hb0
      exact Nat.zero_mul _
    · rw [histogram_binary_support buf hred01 b hb0 hb255, Nat.mul_zero]
  · intro h255
    exact absurd (Finset.mem_range.2 (by omega)) h255

/-- The Otsu search selects threshold 0 on a binarized buffer: the
between-class variance is the same positive constant at every candidate
`t < 255` (or the loop breaks immediately), so the strict-improvement test
never moves the threshold past 0. -/
theorem otsuThreshold_binary (buf : ImageData)
    (hred01 : ∀ p < buf.width * buf.height, buf.data (4 * p) = 0 ∨ buf.data (4 * p) = 255) :
    otsuThresholdOf buf = 0 := by
  unfold otsuThresholdOf
  set T := buf.width * buf.height with hTdef
  set S := intensitySum buf with hSdef
  set H := histogram buf with hHdef
  have htot : H 0 + H 255 = T := histogram_binary_total buf hred01
  have hsum : S = 255 * H 255 := intensitySum_binary buf hred01
  have hsupp : ∀ t, t ≠ 0 → t ≠ 255 → H t = 0 :=
    fun t h1 h2 => histogram_binary_support buf hred01 t h1 h2
  set step := otsuStep T S H with hstepdef
  by_cases h0 : H 0 = 0
  · -- no black pixels: the accumulator keeps wB = 0 until t = 255
    have hfix : (List.range 255).foldl step ⟨0, 0, 0, 0, false⟩ = ⟨0, 0, 0, 0, false⟩ := by
      refine foldlFixed _ _ _ (fun t ht => ?_)
      have ht' : t < 255 := List.mem_range.1 ht
      have hht : H t = 0 := by
        by_cases ht0 : t = 0
        · subst ht0
          exact h0
        · exact hsupp t ht0 (by omega)
      rw [hstepdef]
      simp [otsuStep, hht]
    rw [show (256 : ℕ) = 255 + 1 from rfl, List.range_succ, List.foldl_append, hfix]
    simp only [List.foldl_cons, List.foldl_nil]
    by_cases hT0 : T = 0
    · have h255z : H 255 = 0 := by omega
      rw [hstepdef]
      simp [otsuStep, h255z]
    · have h255T : H 255 = T := by omega
      rw [hstepdef]
      simp [otsuStep, h255T, hT0]
  · -- black pixels exist: t = 0 becomes the stored threshold
    have hn0pos : 0 < H 0 := Nat.pos_of_ne_zero h0
    have hTpos : 0 < T := by omega
    by_cases h255 : H 255 = 0
    · -- no white pixels: the loop breaks at t = 0 with threshold 0
      have hs1 : step ⟨0, 0, 0, 0, false⟩ 0 = ⟨H 0, 0, 0, 0, true⟩ := by
        have hTn0 : (T : ℤ) - ((H 0 : ℕ) : ℤ) = 0 := by omega
        rw [hstepdef]
        simp [otsuStep, h0, hTn0]
      have hdone : ∀ l : List ℕ, l.foldl step ⟨H 0, 0, 0, 0, true⟩ = ⟨H 0, 0, 0, 0, true⟩ := by
        intro l
        refine foldlFixed _ _ _ (fun a _ => ?_)
        rw [hstepdef]
        simp [otsuStep]
      have h255fold : (List.range 255).foldl step ⟨0, 0, 0, 0, false⟩ = ⟨H 0, 0, 0, 0, true⟩ := by
        rw [show (255 : ℕ) = 254 + 1 from rfl, List.range_succ_eq_map, List.foldl_cons,
          hs1, hdone]
      rw [show (256 : ℕ) = 255 + 1 from rfl, List.range_succ, List.foldl_append, h255fold,
        List.foldl_cons, List.foldl_nil, hstepdef]
      simp [otsuStep]
    · -- both classes occupied
      have h255pos : 0 < H 255 := Nat.pos_of_ne_zero h255
      have hwF : (T : ℤ) - ((H 0 : ℕ) : ℤ) = ((H 255 : ℕ) : ℤ) := by omega
      have hVval : otsuVariance T S (H 0) 0 = (H 0 : ℚ) * (H 255 : ℚ) * (255 * 255) := by
        unfold otsuVariance
        rw [hwF, hsum]
        have hne : ((H 255 : ℕ) : ℚ) ≠ 0 := Nat.cast_ne_zero.2 h255
        push_cast
        field_simp
      have hVpos : 0 < otsuVariance T S (H 0) 0 := by
        rw [hVval]
        have h1 : (0 : ℚ) < (H 0 : ℚ) := Nat.cast_pos.2 hn0pos
        have h2 : (0 : ℚ) < (H 255 : ℚ) := Nat.cast_pos.2 h255pos
        have h3 : (0 : ℚ) < 255 * 255 := by norm_num
        exact mul_pos (mul_pos h1 h2) h3
      have hs1 : step ⟨0, 0, 0, 0, false⟩ 0 =
          ⟨H 0, 0, otsuVariance T S (H 0) 0, 0, false⟩ := by
        have hwFne : ¬ ((T : ℤ) - ((H 0 : ℕ) : ℤ) = 0) := by omega
        rw [hstepdef]
        simp [otsuStep, h0, hwFne, hVpos]
      have hsteady : ∀ t, t ≠ 0 → t ≠ 255 →
          step ⟨H 0, 0, otsuVariance T S (H 0) 0, 0, false⟩ t =
            ⟨H 0, 0, otsuVariance T S (H 0) 0, 0, false⟩ := by
        intro t ht0 ht255
        have hht : H t = 0 := hsupp t ht0 ht255
        have hwFne : ¬ ((T : ℤ) - ((H 0 : ℕ) : ℤ) = 0) := by omega
        rw [hstepdef]
        simp [otsuStep, hht, h0, hwFne, lt_irrefl]
      have hseg : ∀ k, k ≤ 254 → (List.range (k + 1)).foldl step ⟨0, 0, 0, 0, false⟩ =
          ⟨H 0, 0, otsuVariance T S (H 0) 0, 0, false⟩ := by
        intro k
        induction k with
        | zero =>
          intro _
          rw [show List.range (0 + 1) = [0] from rfl]
          simp only [List.foldl_cons, List.foldl_nil]
          exact hs1
        | succ k ih =>
          intro hk
          rw [List.range_succ, List.foldl_append, ih (by omega)]
          simp only [List.foldl_cons, List.foldl_nil]
          exact hsteady (k + 1) (by omega) (by omega)
      have h255fold : (List.range 255).foldl step ⟨0, 0, 0, 0, false⟩ =
          ⟨H 0, 0, otsuVariance T S (H 0) 0, 0, false⟩ := by
        have h := hseg 254 (by omega)
        rw [show (254 : ℕ) + 1 = 255 from rfl] at h
        exact h
      rw [show (256 : ℕ) = 255 + 1 from rfl, List.range_succ, List.foldl_append, h255fold]
      simp only [List.foldl_cons, List.foldl_nil]
      have hfin : (T : ℤ) - (((H 0 : ℕ) : ℤ) + ((H 255 : ℕ) : ℤ)) = 0 := by omega
      have hne1 : ¬ (H 0 + H 255 = 0) := by omega
      rw [hstepdef]
      simp [otsuStep, hne1, hfin]

/-- Pointwise description of `applyOtsuThreshold`. -/
theorem applyOtsuThreshold_data (buf : ImageData) (i : ℕ) :
    (applyOtsuThreshold buf).data i =
      if i < buf.len ∧ i % 4 ≠ 3 then
        (if otsuThresholdOf buf < buf.data (4 * (i / 4)) then 255 else 0)
      else buf.data i := rfl

/-- A 1×1 buffer with the single pixel (0, 255, 0, 255): all color samples
are 0 or 255, but the channels disagree. -/
def otsuCexBuf : ImageData := ⟨1, 1, fun i => if i = 1 then 255 else if i = 3 then 255 else 0⟩

/-- C6 counterexample: the claim quantifies over every buffer whose color
samples are all 0 or 255; on the pixel (0, 255, 0, 255) Otsu binarization
overwrites the green sample with the red-derived value 0, so the output is
not equal to the input. -/
theorem qrscanner_c6_counterexample :
    (applyOtsuThreshold otsuCexBuf).data 1 = 0 ∧ otsuCexBuf.data 1 = 255 := by
  set_option maxRecDepth 4000 in decide

/-- C6 (amended): Otsu binarization is the identity on buffers that are
binarized pixel-wise — every pixel has equal R, G, B samples, each 0 or
255.  (The selected threshold is 0 and `data[i] > 0 ? 255 : 0` then
reproduces each sample.) -/
theorem qrscanner_c6_amended (buf : ImageData)
    (hb : ∀ p < buf.width * buf.height,
      buf.data (4 * p + 1) = buf.data (4 * p) ∧
      buf.data (4 * p + 2) = buf.data (4 * p) ∧
      (buf.data (4 * p) = 0 ∨ buf.data (4 * p) = 255)) :
    applyOtsuThreshold buf = buf := by
  have hred01 : ∀ p < buf.width * buf.height,
      buf.data (4 * p) = 0 ∨ buf.data (4 * p) = 255 :=
    fun p hp => (hb p hp).2.2
  refine ImageData.ext rfl rfl (funext fun i => ?_)
  rw [applyOtsuThreshold_data, otsuThreshold_binary buf hred01]
  by_cases hc : i < buf.len ∧ i % 4 ≠ 3
  · rw [if_pos hc]
    obtain ⟨hi, h3⟩ := hc
    have hp : i / 4 < buf.width * buf.height := by
      unfold ImageData.len at hi
      omega
    obtain ⟨hg, hbl, h01⟩ := hb (i / 4) hp
    have hdi : buf.data i = buf.data (4 * (i / 4)) := by
      have hmod : i % 4 = 0 ∨ i % 4 = 1 ∨ i % 4 = 2 := by omega
      rcases hmod with h | h | h
      · exact congrArg buf.data (by omega)
      · exact (congrArg buf.data (show i = 4 * (i / 4) + 1 by omega)).trans hg
      · exact (congrArg buf.data (show i = 4 * (i / 4) + 2 by omega)).trans hbl
    rw [hdi]
    rcases h01 with h | h
    · rw [h]
      simp
    · rw [h]
      simp
  · rw [if_neg hc]

/-- A 1×1 all-white buffer, binarized pixel-wise. -/
def whiteBuf : ImageData := ⟨1, 1, fun _ => 255⟩

/-- Witness for the amended C6: Otsu binarization fixes the concrete
all-white buffer. -/
theorem qrscanner_c6_witness : applyOtsuThreshold whiteBuf = whiteBuf :=
  qrscanner_c6_amended whiteBuf (fun p hp => by
    refine ⟨rfl, rfl, Or.inr rfl⟩)

end QRScanner
